import Mathlib

/-!
Shallow embedding of the core projection functions of `src/app.py`
(a retirement-planning calculator).  Python floats are modelled as real
numbers; Python `**` with the fractional exponent `1/12` is modelled by
`Real.rpow`; the month-by-month simulation loops are modelled by
recursive functions producing the same per-month records the source
appends to its `data` list.
-/

noncomputable section

/-- `convert_annual_to_monthly_rate` from `src/app.py` (lines 42-44):
`(1 + annual_rate / 100) ** (1/12) - 1`. -/
def convert_annual_to_monthly_rate (annual_rate : ℝ) : ℝ :=
  (1 + annual_rate / 100) ^ ((1 : ℝ) / 12) - 1

/-- One row of the month-by-month breakdown produced by
`corpus_to_monthly_withdrawal` and `withdrawal_to_corpus_duration`
(columns `Month, Year, Starting Balance, Monthly Return,
Withdrawal Amount, Ending Balance`). -/
structure WithdrawalRecord where
  month : ℕ
  year : ℕ
  startingBalance : ℝ
  monthlyReturn : ℝ
  withdrawalAmount : ℝ
  endingBalance : ℝ

/-- The record appended by the loop body of `corpus_to_monthly_withdrawal`
(lines 89-96): at this point `corpus` is the balance after applying the
return and subtracting the withdrawal `w`. -/
def c2wRecord (r : ℝ) (m : ℕ) (corpus w : ℝ) : WithdrawalRecord :=
  { month := m
    year := (m + 11) / 12
    startingBalance := corpus + w
    monthlyReturn := (corpus + w) * r
    withdrawalAmount := w
    endingBalance := corpus }

/-- The `for month in range(1, total_months + 1)` loop of
`corpus_to_monthly_withdrawal` (lines 82-99): `k` months remain,
`month` is the number of months already simulated, `corpus` is the
current balance and `w` the current withdrawal. -/
def c2wLoop (r g : ℝ) : ℕ → ℕ → ℝ → ℝ → List WithdrawalRecord
  | 0, _, _, _ => []
  | k + 1, month, corpus, w =>
      c2wRecord r (month + 1) (corpus * (1 + r) - w) w ::
        c2wLoop r g k (month + 1) (corpus * (1 + r) - w) (w * (1 + g))

/-- `corpus_to_monthly_withdrawal` from `src/app.py` (lines 55-101):
solves the growing-annuity equation for the initial withdrawal, then
simulates `years*12` months; returns the record list and the solved
initial monthly withdrawal. -/
def corpus_to_monthly_withdrawal (starting_corpus annual_return annual_inflation : ℝ)
    (years : ℕ) : List WithdrawalRecord × ℝ :=
  let monthly_return := convert_annual_to_monthly_rate annual_return
  let monthly_inflation := convert_annual_to_monthly_rate annual_inflation
  let total_months := years * 12
  let monthly_withdrawal :=
    if monthly_return = monthly_inflation then
      starting_corpus / (total_months : ℝ)
    else
      starting_corpus /
        ((1 - ((1 + monthly_inflation) / (1 + monthly_return)) ^ total_months) /
          (monthly_return - monthly_inflation))
  (c2wLoop monthly_return monthly_inflation total_months 0 starting_corpus monthly_withdrawal,
   monthly_withdrawal)

/-- The record appended by the loop body of `withdrawal_to_corpus_duration`
(lines 128-135): `car` is `corpus_after_return` and `aw` the
`actual_withdrawal`; `current_corpus` there equals `car - aw`. -/
def w2dRecord (r : ℝ) (m : ℕ) (car aw : ℝ) : WithdrawalRecord :=
  { month := m
    year := (m + 11) / 12
    startingBalance := car
    monthlyReturn := (car - aw) + aw - car + car * r
    withdrawalAmount := aw
    endingBalance := max 0 (car - aw) }

/-- The `while current_corpus > 0` loop of `withdrawal_to_corpus_duration`
(lines 116-146): `month` is the loop counter at entry; each iteration
applies the return, withdraws `min` of the scheduled withdrawal and the
post-return balance, records the period, stops on depletion or once the
month counter exceeds 1200, and otherwise grows the withdrawal by the
monthly inflation rate. -/
def w2dLoop (r g : ℝ) (month : ℕ) (corpus w : ℝ) :
    List WithdrawalRecord × ℕ :=
  if 0 < corpus then
    if corpus * (1 + r) - min w (corpus * (1 + r)) ≤ 0 then
      ([w2dRecord r (month + 1) (corpus * (1 + r)) (min w (corpus * (1 + r)))], month + 1)
    else if h : 1200 < month + 1 then
      ([w2dRecord r (month + 1) (corpus * (1 + r)) (min w (corpus * (1 + r)))], month + 1)
    else
      let rest := w2dLoop r g (month + 1)
        (corpus * (1 + r) - min w (corpus * (1 + r))) (w * (1 + g))
      (w2dRecord r (month + 1) (corpus * (1 + r)) (min w (corpus * (1 + r))) :: rest.1,
       rest.2)
  else ([], month)
  termination_by 1201 - month
  decreasing_by omega

/-- `withdrawal_to_corpus_duration` from `src/app.py` (lines 103-148):
returns the record list and the final value of the month counter. -/
def withdrawal_to_corpus_duration (starting_corpus monthly_withdrawal
    annual_return annual_inflation : ℝ) : List WithdrawalRecord × ℕ :=
  w2dLoop (convert_annual_to_monthly_rate annual_return)
    (convert_annual_to_monthly_rate annual_inflation) 0 starting_corpus monthly_withdrawal

/-- One row of the breakdown produced by `monthly_savings_to_corpus`
(columns `Month, Year, SIP Amount, Corpus Before Return, Monthly Return,
Corpus After Return`). -/
structure SipRecord where
  month : ℕ
  year : ℕ
  sipAmount : ℝ
  corpusBeforeReturn : ℝ
  monthlyReturn : ℝ
  corpusAfterReturn : ℝ

/-- The `for month in range(1, total_months + 1)` loop of
`monthly_savings_to_corpus` (lines 165-183): each month adds the SIP,
compounds the whole balance, records the period, and every 12th month
steps the SIP up by `(1 + annual_stepup/100)`.  Returns the records and
the final corpus. -/
def sipLoop (r stepup : ℝ) : ℕ → ℕ → ℝ → ℝ → List SipRecord × ℝ
  | 0, _, corpus, _ => ([], corpus)
  | k + 1, month, corpus, sip =>
      let c1 := (corpus + sip) * (1 + r)
      let rest := sipLoop r stepup k (month + 1) c1
        (if (month + 1) % 12 = 0 then sip * (1 + stepup / 100) else sip)
      ({ month := month + 1
         year := (month + 1 + 11) / 12
         sipAmount := sip
         corpusBeforeReturn := c1 - c1 * r / (1 + r)
         monthlyReturn := c1 * r / (1 + r)
         corpusAfterReturn := c1 } :: rest.1, rest.2)

/-- `monthly_savings_to_corpus` from `src/app.py` (lines 150-185). -/
def monthly_savings_to_corpus (monthly_sip annual_stepup : ℝ)
    (years_to_retirement : ℕ) (annual_return : ℝ) : List SipRecord × ℝ :=
  sipLoop (convert_annual_to_monthly_rate annual_return) annual_stepup
    (years_to_retirement * 12) 0 0 monthly_sip

/-- One row of the breakdown produced by `custom_cashflow_calculation`
(columns `Month, Year, Cashflow, Corpus Before Cashflow, Monthly Return,
Corpus After Cashflow`). -/
structure CashflowRecord where
  month : ℕ
  year : ℕ
  cashflow : ℝ
  corpusBeforeCashflow : ℝ
  monthlyReturn : ℝ
  corpusAfterCashflow : ℝ

/-- The `for index, row in cashflow_df.iterrows()` loop of
`custom_cashflow_calculation` (lines 197-214): each month compounds the
existing corpus, then adds that month's signed cashflow. -/
def cashflowLoop (r : ℝ) : List ℝ → ℕ → ℝ → List CashflowRecord × ℝ
  | [], _, corpus => ([], corpus)
  | cf :: cfs, month, corpus =>
      let c1 := corpus * (1 + r) + cf
      let rest := cashflowLoop r cfs (month + 1) c1
      ({ month := month + 1
         year := (month + 1 + 11) / 12
         cashflow := cf
         corpusBeforeCashflow := c1 - cf
         monthlyReturn := (c1 - cf) * r
         corpusAfterCashflow := c1 } :: rest.1, rest.2)

/-- `custom_cashflow_calculation` from `src/app.py` (lines 187-216); the
`Cashflow` column of the uploaded dataframe is modelled as a list of
reals, in order. -/
def custom_cashflow_calculation (cashflows : List ℝ) (annual_return : ℝ) :
    List CashflowRecord × ℝ :=
  cashflowLoop (convert_annual_to_monthly_rate annual_return) cashflows 0 0

end

noncomputable section

/-! ### Basic facts about the rate converter -/

lemma conv_zero : convert_annual_to_monthly_rate 0 = 0 := by
  simp [convert_annual_to_monthly_rate]

lemma one_add_conv (a : ℝ) :
    1 + convert_annual_to_monthly_rate a = (1 + a / 100) ^ ((1 : ℝ) / 12) := by
  unfold convert_annual_to_monthly_rate
  ring

lemma conv_pos {a : ℝ} (ha : 0 < a) : 0 < convert_annual_to_monthly_rate a := by
  have hx : (0 : ℝ) < 1 + a / 100 := by linarith
  have h1 : (1 : ℝ) < 1 + a / 100 := by linarith
  have h2 : (1 : ℝ) < (1 + a / 100) ^ ((1 : ℝ) / 12) :=
    (Real.one_lt_rpow_iff_of_pos hx).2 (Or.inl ⟨h1, by norm_num⟩)
  unfold convert_annual_to_monthly_rate
  linarith

lemma conv_le {a : ℝ} (ha : 0 ≤ a) : convert_annual_to_monthly_rate a ≤ a / 100 := by
  have h := Real.rpow_le_rpow_of_exponent_le
    (by linarith : (1 : ℝ) ≤ 1 + a / 100) (by norm_num : (1 : ℝ) / 12 ≤ 1)
  rw [Real.rpow_one] at h
  unfold convert_annual_to_monthly_rate
  linarith

lemma conv_gt_neg_one {a : ℝ} (ha : -100 < a) : -1 < convert_annual_to_monthly_rate a := by
  have hx : (0 : ℝ) < 1 + a / 100 := by linarith
  have := Real.rpow_pos_of_pos hx ((1 : ℝ) / 12)
  unfold convert_annual_to_monthly_rate
  linarith

lemma pow_twelve {a : ℝ} (h : -100 < a) :
    (1 + convert_annual_to_monthly_rate a) ^ (12 : ℕ) = 1 + a / 100 := by
  have hx : (0 : ℝ) < 1 + a / 100 := by linarith
  rw [one_add_conv, ← Real.rpow_natCast ((1 + a / 100) ^ ((1 : ℝ) / 12)) 12,
    ← Real.rpow_mul hx.le]
  norm_num

/-- Claim C7: for every annual percentage `a > -100`, compounding the rate
converter's output for twelve months recovers the annual rate:
`(1 + to_monthly(a))^12 - 1 = a/100` (exactly, in the real-number model). -/
theorem rate_converter_round_trip (a : ℝ) (h : -100 < a) :
    (1 + convert_annual_to_monthly_rate a) ^ (12 : ℕ) - 1 = a / 100 := by
  rw [pow_twelve h]
  ring

/-- Witness for C7 at the concrete annual rate 8%. -/
theorem rate_converter_round_trip_witness :
    (-100 : ℝ) < 8 ∧ (1 + convert_annual_to_monthly_rate 8) ^ (12 : ℕ) - 1 = 8 / 100 :=
  ⟨by norm_num, rate_converter_round_trip 8 (by norm_num)⟩

/-- Claim C6: whenever the annual return equals the annual inflation rate,
the Corpus→Withdrawal projector's solved initial monthly withdrawal equals
`corpus / (years*12)` exactly. -/
theorem equal_rates_solved_withdrawal (c a : ℝ) (y : ℕ) (hc : 0 < c) (hy : 0 < y) :
    (corpus_to_monthly_withdrawal c a a y).2 = c / ((y : ℝ) * 12) := by
  simp only [corpus_to_monthly_withdrawal, if_pos rfl]
  push_cast
  ring

/-- Witness for C6 at corpus 1200, rate 7%, horizon 1 year. -/
theorem equal_rates_solved_withdrawal_witness :
    (0 : ℝ) < 1200 ∧ 0 < 1 ∧
      (corpus_to_monthly_withdrawal 1200 7 7 1).2 = 1200 / (((1 : ℕ) : ℝ) * 12) :=
  ⟨by norm_num, by norm_num,
    equal_rates_solved_withdrawal 1200 7 1 (by norm_num) (by norm_num)⟩

/-! ### Structural facts about the simulation loops -/

lemma c2wLoop_length (r g : ℝ) (k : ℕ) : ∀ (month : ℕ) (corpus w : ℝ),
    (c2wLoop r g k month corpus w).length = k := by
  induction k with
  | zero => intro month corpus w; rfl
  | succ k ih => intro month corpus w; simp [c2wLoop, ih]

lemma cashflowLoop_length (r : ℝ) (cfs : List ℝ) : ∀ (month : ℕ) (c : ℝ),
    (cashflowLoop r cfs month c).1.length = cfs.length := by
  induction cfs with
  | nil => intro month c; rfl
  | cons cf cfs ih => intro month c; simp [cashflowLoop, ih]

lemma cashflowLoop_map (r : ℝ) (cfs : List ℝ) : ∀ (month : ℕ) (c : ℝ),
    (cashflowLoop r cfs month c).1.map (fun p => p.cashflow) = cfs := by
  induction cfs with
  | nil => intro month c; rfl
  | cons cf cfs ih => intro month c; simp [cashflowLoop, ih]

lemma cashflowLoop_sum (cfs : List ℝ) : ∀ (month : ℕ) (c : ℝ),
    (cashflowLoop 0 cfs month c).2 = c + cfs.sum := by
  induction cfs with
  | nil => intro month c; simp [cashflowLoop]
  | cons cf cfs ih => intro month c; simp [cashflowLoop, ih]; ring

/-- Claim C9: the Custom Cashflow projector produces exactly one record per
schedule entry, in schedule order; at a 0% annual return the final corpus
value is the exact sum of the schedule, and in particular the schedule
`[100, -50, 100]` at 0% yields exactly 150. -/
theorem custom_cashflow_facts :
    (∀ (cfs : List ℝ) (a : ℝ),
        (custom_cashflow_calculation cfs a).1.length = cfs.length ∧
        (custom_cashflow_calculation cfs a).1.map (fun p => p.cashflow) = cfs) ∧
    (∀ cfs : List ℝ, (custom_cashflow_calculation cfs 0).2 = cfs.sum) ∧
    (custom_cashflow_calculation [100, -50, 100] 0).2 = 150 := by
  refine ⟨fun cfs a => ⟨cashflowLoop_length _ _ _ _, cashflowLoop_map _ _ _ _⟩,
    fun cfs => ?_, ?_⟩
  · unfold custom_cashflow_calculation
    rw [conv_zero, cashflowLoop_sum]
    ring
  · unfold custom_cashflow_calculation
    rw [conv_zero, cashflowLoop_sum]
    norm_num

/-- Claim C10: with a non-positive starting corpus the Withdrawal→Duration
simulation loop never runs: the projector returns an empty record list and
a duration of 0 months. -/
theorem duration_nonpos_corpus (c w a b : ℝ) (hc : c ≤ 0) :
    withdrawal_to_corpus_duration c w a b = ([], 0) := by
  unfold withdrawal_to_corpus_duration
  rw [w2dLoop]
  rw [if_neg (not_lt.2 hc)]

/-- Witness for C10 at corpus -1. -/
theorem duration_nonpos_corpus_witness :
    (-1 : ℝ) ≤ 0 ∧ withdrawal_to_corpus_duration (-1) 5 8 6 = ([], 0) :=
  ⟨by norm_num, duration_nonpos_corpus (-1) 5 8 6 (by norm_num)⟩

/-- Claim C4 (amended): the code performs no input validation at all — the
Corpus→Withdrawal projector runs its full `years*12`-month simulation for
every input, including non-positive corpora, and the Custom Cashflow
projector returns an empty record list with final value 0 for an empty
schedule instead of failing. -/
theorem no_input_validation :
    (∀ (c a b : ℝ) (y : ℕ), (corpus_to_monthly_withdrawal c a b y).1.length = y * 12) ∧
    (∀ a : ℝ, custom_cashflow_calculation [] a = ([], 0)) := by
  constructor
  · intro c a b y
    simp only [corpus_to_monthly_withdrawal]
    exact c2wLoop_length _ _ _ _ _ _
  · intro a
    rfl

/-- Counterexample for C4 as stated: at the invalid input corpus = -5
(non-positive), the Corpus→Withdrawal projector does not fail and does not
return an empty result — it produces the full 24-month record sequence. -/
theorem invalid_corpus_still_simulates :
    (corpus_to_monthly_withdrawal (-5) 8 6 2).1.length = 24 ∧
      (corpus_to_monthly_withdrawal (-5) 8 6 2).1 ≠ [] := by
  have h : (corpus_to_monthly_withdrawal (-5) 8 6 2).1.length = 24 := by
    simp only [corpus_to_monthly_withdrawal]
    exact c2wLoop_length _ _ _ _ _ _
  refine ⟨h, fun hnil => ?_⟩
  rw [hnil] at h
  simp at h

end

noncomputable section

/-! ### Branch lemmas for the Withdrawal→Duration loop -/

lemma w2dLoop_stop (r g : ℝ) (month : ℕ) {corpus w : ℝ} (h0 : 0 < corpus)
    (h1 : corpus * (1 + r) - min w (corpus * (1 + r)) ≤ 0) :
    w2dLoop r g month corpus w =
      ([w2dRecord r (month + 1) (corpus * (1 + r)) (min w (corpus * (1 + r)))],
        month + 1) := by
  rw [w2dLoop, if_pos h0, if_pos h1]

lemma w2dLoop_cap (r g : ℝ) {month : ℕ} {corpus w : ℝ} (h0 : 0 < corpus)
    (h1 : ¬ corpus * (1 + r) - min w (corpus * (1 + r)) ≤ 0) (h2 : 1200 < month + 1) :
    w2dLoop r g month corpus w =
      ([w2dRecord r (month + 1) (corpus * (1 + r)) (min w (corpus * (1 + r)))],
        month + 1) := by
  rw [w2dLoop, if_pos h0, if_neg h1, dif_pos h2]

lemma w2dLoop_go (r g : ℝ) {month : ℕ} {corpus w : ℝ} (h0 : 0 < corpus)
    (h1 : ¬ corpus * (1 + r) - min w (corpus * (1 + r)) ≤ 0) (h2 : ¬ 1200 < month + 1) :
    w2dLoop r g month corpus w =
      (w2dRecord r (month + 1) (corpus * (1 + r)) (min w (corpus * (1 + r))) ::
        (w2dLoop r g (month + 1) (corpus * (1 + r) - min w (corpus * (1 + r)))
          (w * (1 + g))).1,
       (w2dLoop r g (month + 1) (corpus * (1 + r) - min w (corpus * (1 + r)))
          (w * (1 + g))).2) := by
  rw [w2dLoop, if_pos h0, if_neg h1, dif_neg h2]

lemma w2dLoop_nonpos (r g : ℝ) (month : ℕ) {corpus : ℝ} (w : ℝ) (h0 : ¬ 0 < corpus) :
    w2dLoop r g month corpus w = ([], month) := by
  rw [w2dLoop, if_neg h0]

/-- Facts about a single record appended by the Withdrawal→Duration loop at
entry state `(month, c, w)`. -/
lemma w2dRecord_facts (r g : ℝ) (month : ℕ) (c w : ℝ) (p : WithdrawalRecord)
    (hp : p = w2dRecord r (month + 1) (c * (1 + r)) (min w (c * (1 + r)))) :
    month < p.month ∧
    p.withdrawalAmount = min (w * (1 + g) ^ (p.month - month - 1)) p.startingBalance ∧
    0 ≤ p.endingBalance ∧
    p.endingBalance = p.startingBalance - p.withdrawalAmount := by
  subst hp
  have he : month + 1 - month - 1 = 0 := by omega
  refine ⟨Nat.lt_succ_self month, ?_, le_max_left _ _, ?_⟩
  · simp [w2dRecord, he]
  · simp [w2dRecord, max_eq_right (sub_nonneg.2 (min_le_right w (c * (1 + r))))]

/-- Every record produced by the Withdrawal→Duration loop withdraws the
minimum of the inflation-grown scheduled withdrawal and the post-return
balance, has a non-negative ending balance, and its ending balance equals
the post-return balance minus the actual withdrawal (no clamping below
zero ever occurs). -/
lemma w2dLoop_mem (r g : ℝ) : ∀ (n month : ℕ), 1200 ≤ month + n → ∀ (c w : ℝ),
    ∀ p ∈ (w2dLoop r g month c w).1,
      month < p.month ∧
      p.withdrawalAmount = min (w * (1 + g) ^ (p.month - month - 1)) p.startingBalance ∧
      0 ≤ p.endingBalance ∧
      p.endingBalance = p.startingBalance - p.withdrawalAmount := by
  intro n
  induction n with
  | zero =>
    intro month hm c w p hp
    by_cases h0 : 0 < c
    · by_cases h1 : c * (1 + r) - min w (c * (1 + r)) ≤ 0
      · rw [w2dLoop_stop r g month h0 h1] at hp
        exact w2dRecord_facts r g month c w p (List.mem_singleton.1 hp)
      · rw [w2dLoop_cap r g h0 h1 (by omega)] at hp
        exact w2dRecord_facts r g month c w p (List.mem_singleton.1 hp)
    · rw [w2dLoop_nonpos r g month w h0] at hp
      simp at hp
  | succ n ih =>
    intro month hm c w p hp
    by_cases h0 : 0 < c
    · by_cases h1 : c * (1 + r) - min w (c * (1 + r)) ≤ 0
      · rw [w2dLoop_stop r g month h0 h1] at hp
        exact w2dRecord_facts r g month c w p (List.mem_singleton.1 hp)
      · by_cases h2 : 1200 < month + 1
        · rw [w2dLoop_cap r g h0 h1 h2] at hp
          exact w2dRecord_facts r g month c w p (List.mem_singleton.1 hp)
        · rw [w2dLoop_go r g h0 h1 h2] at hp
          rcases List.mem_cons.1 hp with hp | hp
          · exact w2dRecord_facts r g month c w p hp
          · obtain ⟨hlt, hw, hnn, hend⟩ := ih (month + 1) (by omega) _ _ p hp
            refine ⟨by omega, ?_, hnn, hend⟩
            rw [hw]
            have he : p.month - (month + 1) - 1 = p.month - month - 2 := by omega
            have he2 : p.month - month - 1 = (p.month - month - 2) + 1 := by omega
            rw [he, he2, pow_succ]
            ring_nf
    · rw [w2dLoop_nonpos r g month w h0] at hp
      simp at hp

/-- Claim C5: in every month of the Withdrawal→Duration simulation the amount
actually withdrawn is the minimum of the scheduled (inflation-grown)
withdrawal and the balance after that month's return (the recorded
`Starting Balance`); every recorded `Ending Balance` is non-negative; and
the ending balance is exactly the post-return balance minus the actual
withdrawal, so in a depletion month (`Ending Balance = 0`) the final
partial withdrawal closes the corpus out exactly at zero. -/
theorem clamped_withdrawal_invariant (c w a b : ℝ) :
    ∀ p ∈ (withdrawal_to_corpus_duration c w a b).1,
      p.withdrawalAmount =
        min (w * (1 + convert_annual_to_monthly_rate b) ^ (p.month - 1))
          p.startingBalance ∧
      0 ≤ p.endingBalance ∧
      p.endingBalance = p.startingBalance - p.withdrawalAmount := by
  intro p hp
  have h := w2dLoop_mem (convert_annual_to_monthly_rate a)
    (convert_annual_to_monthly_rate b) 1200 0 (by omega) c w p hp
  simpa using h.2

lemma c5_eval : withdrawal_to_corpus_duration 100 200 0 0 =
    ([⟨1, 1, 100, 0, 100, 0⟩], 1) := by
  unfold withdrawal_to_corpus_duration
  rw [conv_zero]
  rw [w2dLoop_stop 0 0 0 (by norm_num) (by norm_num [min_def])]
  norm_num [w2dRecord, min_def]

/-- Witness for C5: the single record of the run with corpus 100,
withdrawal 200 and zero rates. -/
theorem clamped_withdrawal_invariant_witness :
    (⟨1, 1, 100, 0, 100, 0⟩ : WithdrawalRecord) ∈
      (withdrawal_to_corpus_duration 100 200 0 0).1 ∧
    ((⟨1, 1, 100, 0, 100, 0⟩ : WithdrawalRecord).withdrawalAmount =
        min (200 * (1 + convert_annual_to_monthly_rate 0) ^
            ((⟨1, 1, 100, 0, 100, 0⟩ : WithdrawalRecord).month - 1))
          (⟨1, 1, 100, 0, 100, 0⟩ : WithdrawalRecord).startingBalance ∧
      0 ≤ (⟨1, 1, 100, 0, 100, 0⟩ : WithdrawalRecord).endingBalance ∧
      (⟨1, 1, 100, 0, 100, 0⟩ : WithdrawalRecord).endingBalance =
        (⟨1, 1, 100, 0, 100, 0⟩ : WithdrawalRecord).startingBalance -
          (⟨1, 1, 100, 0, 100, 0⟩ : WithdrawalRecord).withdrawalAmount) := by
  have hmem : (⟨1, 1, 100, 0, 100, 0⟩ : WithdrawalRecord) ∈
      (withdrawal_to_corpus_duration 100 200 0 0).1 := by
    rw [c5_eval]
    exact List.mem_singleton.2 rfl
  exact ⟨hmem, clamped_withdrawal_invariant 100 200 0 0 _ hmem⟩

end

noncomputable section

/-- With zero monthly rates, a unit withdrawal and a corpus larger than the
number of remaining months, the Withdrawal→Duration loop started at month
counter `month = 1201 - k` runs all remaining months and exits through the
safety check with month counter 1201, having recorded `k` periods, the last
with ending balance `c - k`. -/
lemma w2dLoop_zero_rates : ∀ (k month : ℕ) (c : ℝ), month + k = 1201 → 1 ≤ k →
    (k : ℝ) < c →
    (w2dLoop 0 0 month c 1).2 = 1201 ∧
    (w2dLoop 0 0 month c 1).1.length = k ∧
    ((w2dLoop 0 0 month c 1).1.getLast?).map (fun p => p.endingBalance) =
      some (c - k) := by
  intro k
  induction k with
  | zero => intro month c _ hk; omega
  | succ k ih =>
    intro month c hm hk hc
    push_cast at hc
    have hk0 : (0 : ℝ) ≤ k := Nat.cast_nonneg k
    have h0 : (0 : ℝ) < c := by linarith
    have hmul : c * (1 + (0 : ℝ)) = c := by ring
    have hmin : min (1 : ℝ) (c * (1 + 0)) = 1 := by
      rw [hmul]
      exact min_eq_left (by linarith)
    have h1 : ¬ c * (1 + (0 : ℝ)) - min 1 (c * (1 + 0)) ≤ 0 := by
      rw [hmin, hmul]
      push_neg
      linarith
    rcases Nat.eq_zero_or_pos k with hk1 | hk1
    · -- last iteration: the safety check fires with month counter 1201
      subst hk1
      have hmonth : month = 1200 := by omega
      subst hmonth
      rw [w2dLoop_cap 0 0 h0 h1 (by omega)]
      refine ⟨rfl, rfl, ?_⟩
      have hend : max 0 (c * (1 + (0 : ℝ)) - min 1 (c * (1 + 0))) = c - 1 := by
        rw [hmin, hmul]
        exact max_eq_right (by linarith)
      simp [w2dRecord, hend]
      linarith
    · -- recursive case: one more full iteration
      have h2 : ¬ 1200 < month + 1 := by omega
      have hgo := @w2dLoop_go 0 0 month c 1 h0 h1 h2
      rw [hmin, hmul] at hgo
      have hw : (1 : ℝ) * (1 + 0) = 1 := by ring
      rw [hw] at hgo
      have hih := ih (month + 1) (c - 1) (by omega) hk1 (by linarith)
      rw [hgo]
      refine ⟨hih.1, ?_, ?_⟩
      · simp [hih.2.1]
      · obtain ⟨hd, tl, hrest⟩ :
            ∃ hd tl, (w2dLoop 0 0 (month + 1) (c - 1) 1).1 = hd :: tl := by
          rcases hrest : (w2dLoop 0 0 (month + 1) (c - 1) 1).1 with _ | ⟨hd, tl⟩
          · exfalso
            have := hih.2.1
            rw [hrest] at this
            simp at this
            omega
          · exact ⟨hd, tl, rfl⟩
        have hlast := hih.2.2
        rw [hrest] at hlast ⊢
        rw [List.getLast?_cons_cons]
        rw [hlast]
        congr 1
        push_cast
        ring

/-- Claim C1 (evaluation of the code at the failing input): with corpus
1,000,000,000, withdrawal 1, return 0% and inflation 0% the corpus is never
depleted, and the simulation records 1201 periods (not at most 1200) and
reports a duration of 1201 months (not exactly 1200); the final ending
balance 999,998,799 is still positive. -/
theorem safety_cap_runs_1201_months :
    (withdrawal_to_corpus_duration 1000000000 1 0 0).2 = 1201 ∧
    (withdrawal_to_corpus_duration 1000000000 1 0 0).1.length = 1201 ∧
    ((withdrawal_to_corpus_duration 1000000000 1 0 0).1.getLast?).map
      (fun p => p.endingBalance) = some 999998799 := by
  unfold withdrawal_to_corpus_duration
  rw [conv_zero]
  have h := w2dLoop_zero_rates 1201 0 1000000000 (by omega) (by omega) (by norm_num)
  refine ⟨h.1, h.2.1, ?_⟩
  rw [h.2.2]
  norm_num

end

noncomputable section

/-- Full evaluation of the Withdrawal→Duration projector at corpus
1,000,000, withdrawal 1,000,000, return 8%, inflation 6%: the first month's
return leaves a positive residual after the full withdrawal, and the second
month's clamped withdrawal clears it, so the run takes exactly 2 months. -/
lemma c2_eval :
    (withdrawal_to_corpus_duration 1000000 1000000 8 6).2 = 2 ∧
    ((withdrawal_to_corpus_duration 1000000 1000000 8 6).1.map
      fun p => p.endingBalance) = [1000000 * convert_annual_to_monthly_rate 8, 0] := by
  set r := convert_annual_to_monthly_rate 8 with hrdef
  set g := convert_annual_to_monthly_rate 6 with hgdef
  have hr0 : 0 < r := conv_pos (by norm_num)
  have hr8 : r ≤ 8 / 100 := conv_le (by norm_num)
  have hg0 : 0 < g := conv_pos (by norm_num)
  have hrr : r * r ≤ (8 / 100) * (8 / 100) :=
    mul_le_mul hr8 hr8 hr0.le (by norm_num)
  unfold withdrawal_to_corpus_duration
  rw [← hrdef, ← hgdef]
  -- month 1: the full withdrawal is taken, residual 1000000 * r > 0
  have hmin1 : min (1000000 : ℝ) (1000000 * (1 + r)) = 1000000 :=
    min_eq_left (by nlinarith)
  have h1 : ¬ (1000000 : ℝ) * (1 + r) - min 1000000 (1000000 * (1 + r)) ≤ 0 := by
    rw [hmin1]
    push_neg
    nlinarith
  have hgo := @w2dLoop_go r g 0 1000000 1000000 (by norm_num) h1 (by omega)
  rw [hmin1] at hgo
  have hc2 : (1000000 : ℝ) * (1 + r) - 1000000 = 1000000 * r := by ring
  rw [hc2] at hgo
  -- month 2: the grown withdrawal exceeds the post-return residual
  have hmin2 : min (1000000 * (1 + g)) (1000000 * r * (1 + r)) =
      1000000 * r * (1 + r) := by
    refine min_eq_right ?_
    nlinarith
  have h0' : (0 : ℝ) < 1000000 * r := by nlinarith
  have h1' : (1000000 : ℝ) * r * (1 + r) -
      min (1000000 * (1 + g)) (1000000 * r * (1 + r)) ≤ 0 := by
    rw [hmin2]
    linarith
  have hstop := w2dLoop_stop r g 1 h0' h1'
  rw [hmin2] at hstop
  rw [hstop] at hgo
  rw [hgo]
  refine ⟨rfl, ?_⟩
  simp only [List.map_cons, List.map_nil, w2dRecord]
  have e1 : max 0 ((1000000 : ℝ) * (1 + r) - 1000000) = 1000000 * r := by
    rw [hc2]
    exact max_eq_right (by nlinarith)
  have e2 : max 0 ((1000000 : ℝ) * r * (1 + r) - 1000000 * r * (1 + r)) = 0 := by
    rw [sub_self]
    simp
  rw [e1, e2]

/-- Counterexample to C2 as stated: at corpus 1,000,000, withdrawal
1,000,000, return 8%, inflation 6% the reported duration is not 1 month. -/
theorem one_month_depletion_refuted :
    (withdrawal_to_corpus_duration 1000000 1000000 8 6).2 ≠ 1 := by
  rw [c2_eval.1]
  omega

/-- Claim C2 (amended): at corpus 1,000,000, withdrawal 1,000,000, return
8%, inflation 6% the projector reports a duration of exactly 2 months and
the final ending balance is exactly 0 (the first month ends with the
positive residual `1000000 * r`). -/
theorem two_month_depletion :
    (withdrawal_to_corpus_duration 1000000 1000000 8 6).2 = 2 ∧
    ((withdrawal_to_corpus_duration 1000000 1000000 8 6).1.map
      fun p => p.endingBalance) = [1000000 * convert_annual_to_monthly_rate 8, 0] :=
  c2_eval

end

noncomputable section

/-- Claim C3 (evaluation at the failing input): the recorded fields do not
satisfy `Ending Balance = Starting Balance + Monthly Return - Withdrawal
Amount`.  In the Withdrawal→Duration run (corpus 100, withdrawal 200,
return 8%, inflation 0%) the single record leaves the nonzero residual
`100*(1+r)*r`, and the first record of the Corpus→Withdrawal run (corpus
1200, return 8%, inflation 0%, 1 year) leaves `1200*(1+r)*r`, because the
code records the post-return balance as `Starting Balance` and computes
`Monthly Return` on that post-return balance. -/
theorem record_identity_fails :
    ((withdrawal_to_corpus_duration 100 200 8 0).1.map
        fun p => p.startingBalance + p.monthlyReturn - p.withdrawalAmount - p.endingBalance) =
      [100 * (1 + convert_annual_to_monthly_rate 8) * convert_annual_to_monthly_rate 8] ∧
    ((corpus_to_monthly_withdrawal 1200 8 0 1).1.head?).map
        (fun p => p.startingBalance + p.monthlyReturn - p.withdrawalAmount - p.endingBalance) =
      some (1200 * (1 + convert_annual_to_monthly_rate 8) * convert_annual_to_monthly_rate 8) ∧
    100 * (1 + convert_annual_to_monthly_rate 8) * convert_annual_to_monthly_rate 8 ≠ 0 ∧
    1200 * (1 + convert_annual_to_monthly_rate 8) * convert_annual_to_monthly_rate 8 ≠ 0 := by
  set r := convert_annual_to_monthly_rate 8 with hrdef
  have hr0 : 0 < r := conv_pos (by norm_num)
  have hr8 : r ≤ 8 / 100 := conv_le (by norm_num)
  have hpos1 : (0 : ℝ) < 100 * (1 + r) * r := by nlinarith
  have hpos2 : (0 : ℝ) < 1200 * (1 + r) * r := by nlinarith
  refine ⟨?_, ?_, ne_of_gt hpos1, ne_of_gt hpos2⟩
  · -- the Withdrawal→Duration run stops after one clamped month
    unfold withdrawal_to_corpus_duration
    rw [← hrdef, conv_zero]
    have hmin : min (200 : ℝ) (100 * (1 + r)) = 100 * (1 + r) := by
      refine min_eq_right ?_
      nlinarith
    have h1 : (100 : ℝ) * (1 + r) - min 200 (100 * (1 + r)) ≤ 0 := by
      rw [hmin]
      linarith
    have hstop := w2dLoop_stop r 0 0 (by norm_num : (0 : ℝ) < 100) h1
    rw [hmin] at hstop
    rw [hstop]
    simp only [List.map_cons, List.map_nil, w2dRecord, List.cons.injEq, and_true]
    rw [sub_self]
    simp only [max_self]
    ring
  · -- the first record of the Corpus→Withdrawal run
    simp only [corpus_to_monthly_withdrawal]
    rw [← hrdef, conv_zero]
    have h12 : (1 * 12 : ℕ) = 11 + 1 := by norm_num
    rw [h12, c2wLoop]
    simp only [List.head?_cons, Option.map_some', c2wRecord, Option.some.injEq]
    split_ifs
    · ring
    · ring

end

noncomputable section

/-- Closed form for the recorded SIP amount: starting the loop at month
counter `month` with SIP `s`, the record for absolute month `m` carries
`s` multiplied by the step-up factor once for every multiple of 12 passed
strictly before `m`. -/
lemma sipLoop_mem (r p : ℝ) : ∀ (k month : ℕ) (c s : ℝ),
    ∀ q ∈ (sipLoop r p k month c s).1,
      month < q.month ∧ q.month ≤ month + k ∧
      q.sipAmount = s * (1 + p / 100) ^ ((q.month - 1) / 12 - month / 12) := by
  intro k
  induction k with
  | zero =>
    intro month c s q hq
    simp [sipLoop] at hq
  | succ k ih =>
    intro month c s q hq
    rw [sipLoop] at hq
    simp only [List.mem_cons] at hq
    rcases hq with hq | hq
    · subst hq
      refine ⟨Nat.lt_succ_self month, ?_, ?_⟩
      · show month + 1 ≤ month + (k + 1)
        omega
      · have he : (month + 1 - 1) / 12 - month / 12 = 0 := by omega
        simp [he]
    · by_cases hm : (month + 1) % 12 = 0
      · rw [if_pos hm] at hq
        obtain ⟨h1, h2, h3⟩ := ih (month + 1) _ _ q hq
        refine ⟨by omega, by omega, ?_⟩
        rw [h3]
        have hexp : (q.month - 1) / 12 - month / 12 =
            ((q.month - 1) / 12 - (month + 1) / 12) + 1 := by omega
        rw [hexp, pow_succ]
        ring
      · rw [if_neg hm] at hq
        obtain ⟨h1, h2, h3⟩ := ih (month + 1) _ _ q hq
        refine ⟨by omega, by omega, ?_⟩
        rw [h3]
        have hexp : (q.month - 1) / 12 - (month + 1) / 12 =
            (q.month - 1) / 12 - month / 12 := by omega
        rw [hexp]

/-- Claim C8: for a positive SIP and a positive step-up percentage, the
recorded SIP amount is constant between consecutive months inside a
12-month block and increases by exactly the factor `(1 + stepup/100)` —
and strictly increases — exactly between months `12k` and `12k+1`. -/
theorem sip_stepup_timing (s p : ℝ) (y : ℕ) (a : ℝ) (hs : 0 < s) (hp : 0 < p) :
    ∀ u ∈ (monthly_savings_to_corpus s p y a).1,
      ∀ v ∈ (monthly_savings_to_corpus s p y a).1,
        v.month = u.month + 1 →
          (u.month % 12 ≠ 0 → v.sipAmount = u.sipAmount) ∧
          (u.month % 12 = 0 → v.sipAmount = u.sipAmount * (1 + p / 100) ∧
            u.sipAmount < v.sipAmount) := by
  intro u hu v hv hmv
  simp only [monthly_savings_to_corpus] at hu hv
  obtain ⟨hu1, hu2, hu3⟩ := sipLoop_mem _ p _ 0 _ _ u hu
  obtain ⟨hv1, hv2, hv3⟩ := sipLoop_mem _ p _ 0 _ _ v hv
  have hf1 : (1 : ℝ) < 1 + p / 100 := by linarith
  constructor
  · intro hne
    have hexp : (v.month - 1) / 12 - 0 / 12 = (u.month - 1) / 12 - 0 / 12 := by omega
    rw [hu3, hv3, hexp]
  · intro heq
    have hexp : (v.month - 1) / 12 - 0 / 12 = ((u.month - 1) / 12 - 0 / 12) + 1 := by
      omega
    have hpow : (0 : ℝ) < (1 + p / 100) ^ ((u.month - 1) / 12 - 0 / 12) :=
      pow_pos (by linarith) _
    constructor
    · rw [hu3, hv3, hexp, pow_succ]
      ring
    · rw [hu3, hv3, hexp, pow_succ]
      nlinarith [mul_pos (mul_pos hs hpow) (sub_pos.2 hf1)]

/-- The first two records of the SIP run with monthly SIP 100, step-up 10%,
1 year, 0% return. -/
lemma c8_eval : (monthly_savings_to_corpus 100 10 1 0).1 =
    (⟨1, 1, 100, 100, 0, 100⟩ : SipRecord) ::
      (⟨2, 1, 100, 200, 0, 200⟩ : SipRecord) :: (sipLoop 0 10 10 2 200 100).1 := by
  unfold monthly_savings_to_corpus
  rw [conv_zero]
  have h12 : (1 * 12 : ℕ) = 11 + 1 := by norm_num
  rw [h12, sipLoop]
  have h11 : (11 : ℕ) = 10 + 1 := by norm_num
  rw [h11, sipLoop]
  norm_num

/-- Witness for C8: the records for months 1 and 2 of a concrete run,
with the mid-year conclusion instantiated. -/
theorem sip_stepup_timing_witness :
    (0 : ℝ) < 100 ∧ (0 : ℝ) < 10 ∧
    (⟨1, 1, 100, 100, 0, 100⟩ : SipRecord) ∈ (monthly_savings_to_corpus 100 10 1 0).1 ∧
    (⟨2, 1, 100, 200, 0, 200⟩ : SipRecord) ∈ (monthly_savings_to_corpus 100 10 1 0).1 ∧
    ((⟨2, 1, 100, 200, 0, 200⟩ : SipRecord).month =
      (⟨1, 1, 100, 100, 0, 100⟩ : SipRecord).month + 1) ∧
    ((⟨1, 1, 100, 100, 0, 100⟩ : SipRecord).month % 12 ≠ 0 →
      (⟨2, 1, 100, 200, 0, 200⟩ : SipRecord).sipAmount =
        (⟨1, 1, 100, 100, 0, 100⟩ : SipRecord).sipAmount) := by
  have hm1 : (⟨1, 1, 100, 100, 0, 100⟩ : SipRecord) ∈
      (monthly_savings_to_corpus 100 10 1 0).1 := by
    rw [c8_eval]
    exact List.mem_cons_self _ _
  have hm2 : (⟨2, 1, 100, 200, 0, 200⟩ : SipRecord) ∈
      (monthly_savings_to_corpus 100 10 1 0).1 := by
    rw [c8_eval]
    exact List.mem_cons_of_mem _ (List.mem_cons_self _ _)
  have h := sip_stepup_timing 100 10 1 0 (by norm_num) (by norm_num) _ hm1 _ hm2 rfl
  exact ⟨by norm_num, by norm_num, hm1, hm2, rfl, h.1⟩

end
